import Mathlib

/-!
Formal model of the eonia-atlas interactive world-map core:
camera clamping and zoom math, client↔normalized coordinate transforms,
the pin drag-vs-click gesture machine, the client pin store and save
orchestrator, and the server-side pin persistence layer
(`validatePins`, `readWorldMapPins`, `writeWorldMapPins`, the POST route).

Finite numbers of the source (JS doubles) are modelled as rationals
`ℚ`; the IEEE `NaN` value is modelled explicitly — as the `JVal.nan`
number and as a `none` coordinate — so that the check-then-coerce
order of the pins library's `clamp01` (`Number.isNaN` before
`Math.max`) is preserved exactly.
-/

namespace EoniaAtlas

/-- `clamp(value, min, max) = Math.min(max, Math.max(min, value))`
from the WorldMap component. -/
def clampNum (value lo hi : ℚ) : ℚ :=
  min hi (max lo value)

/-- `clamp01` applied to an actual number: the WorldMap component's
copy, and the numeric path of the pins library's copy (their
`Number.isNaN` branch concerns only the IEEE `NaN` value, handled in
`clamp01J`). -/
def clamp01 (value : ℚ) : ℚ :=
  min 1 (max 0 value)

/-- `DRAG_THRESHOLD_PX` constant. -/
def DRAG_THRESHOLD_PX : ℚ := 4

/-- `MIN_ZOOM` constant. -/
def MIN_ZOOM : ℚ := 1/4

/-- `MAX_ZOOM` constant. -/
def MAX_ZOOM : ℚ := 4

/-- `DEFAULT_ZOOM` constant. -/
def DEFAULT_ZOOM : ℚ := 6/5

/-- Camera state `{ scale, tx, ty }` of the WorldMap component. -/
structure Camera where
  scale : ℚ
  tx : ℚ
  ty : ℚ
  deriving DecidableEq, Repr

/-- A 2D size: used both for `viewportRef.current` (`width`/`height`,
written `w`/`h` here) and for `imgSize` (`{ w, h }`). -/
structure Size where
  w : ℚ
  h : ℚ
  deriving DecidableEq, Repr

/-- `clampCamera(next)` from the WorldMap component: hard-clamps the
scale to `[MIN_ZOOM, MAX_ZOOM]`; when the recorded viewport has a
positive width and height, also clamps `tx`/`ty` so the scaled image
cannot leave the viewport beyond a half-viewport (or half-image)
allowance; a non-positive viewport dimension skips translation
clamping. -/
def clampCamera (viewport imgSize : Size) (next : Camera) : Camera :=
  let scale := clampNum next.scale MIN_ZOOM MAX_ZOOM
  if viewport.w ≤ 0 ∨ viewport.h ≤ 0 then
    { next with scale := scale }
  else
    let scaledWidth := imgSize.w * scale
    let scaledHeight := imgSize.h * scale
    let allowanceX := (1/2 : ℚ) * min viewport.w scaledWidth
    let allowanceY := (1/2 : ℚ) * min viewport.h scaledHeight
    let minTx := viewport.w - scaledWidth - allowanceX
    let maxTx := allowanceX
    let minTy := viewport.h - scaledHeight - allowanceY
    let maxTy := allowanceY
    { scale := scale
    , tx := clampNum next.tx minTx maxTx
    , ty := clampNum next.ty minTy maxTy }

/-- `min hi (max lo ·)` is idempotent, for any `lo`, `hi` (also when
`hi < lo`, in which case both applications return `hi`). -/
theorem clampNum_idem (lo hi v : ℚ) :
    clampNum (clampNum v lo hi) lo hi = clampNum v lo hi := by
  unfold clampNum
  rcases le_total hi (max lo v) with h | h
  · rw [min_eq_left h, min_eq_left (le_max_right lo hi)]
  · rw [min_eq_right h, max_eq_right (le_max_left lo v), min_eq_right h]

/-- `clientToNormalized(clientX, clientY)`: subtracts the container
rect origin, inverts the camera transform, divides by the image size
and clamps to `[0,1]`; returns `none` when the container element is
absent. The container is modelled by its bounding-rect origin. -/
def clientToNormalized (container : Option (ℚ × ℚ)) (camera : Camera)
    (imgSize : Size) (clientX clientY : ℚ) : Option (ℚ × ℚ) :=
  match container with
  | none => none
  | some (rectLeft, rectTop) =>
    let cx := clientX - rectLeft
    let cy := clientY - rectTop
    let mapX := (cx - camera.tx) / camera.scale
    let mapY := (cy - camera.ty) / camera.scale
    some (clamp01 (mapX / imgSize.w), clamp01 (mapY / imgSize.h))

/-- Pin rendering position from `PinsOverlay`:
`left = pin.x * imgSize.w * camera.scale + camera.tx` (and the
`top` analog), a position inside the container element. -/
def pinScreenPos (camera : Camera) (imgSize : Size) (x y : ℚ) : ℚ × ℚ :=
  (x * imgSize.w * camera.scale + camera.tx,
   y * imgSize.h * camera.scale + camera.ty)

/-- The camera computed inside `zoomAt`'s `setCamera` updater, before
`clampCamera` is applied: clamps the target scale, converts the pivot
(already container-relative) to map space under the old camera, and
solves for the translation that keeps that map point under the pivot. -/
def zoomAtUnclamped (prev : Camera) (nextScale cx cy : ℚ) : Camera :=
  let scale := clampNum nextScale MIN_ZOOM MAX_ZOOM
  let mapX := (cx - prev.tx) / prev.scale
  let mapY := (cy - prev.ty) / prev.scale
  { scale := scale, tx := cx - mapX * scale, ty := cy - mapY * scale }

/-- `zoomAt(nextScale, clientX, clientY)`: no-op when the container is
absent; otherwise computes the pivot-preserving camera and clamps it. -/
def zoomAt (container : Option (ℚ × ℚ)) (viewport imgSize : Size)
    (prev : Camera) (nextScale clientX clientY : ℚ) : Camera :=
  match container with
  | none => prev
  | some (rectLeft, rectTop) =>
    clampCamera viewport imgSize
      (zoomAtUnclamped prev nextScale (clientX - rectLeft) (clientY - rectTop))

/-- C1: for every camera, viewport size and image size (including a
zero-width or zero-height viewport), `clampCamera` is idempotent:
`clampCamera (clampCamera c) = clampCamera c`. -/
theorem clampCamera_idem (viewport imgSize : Size) (c : Camera) :
    clampCamera viewport imgSize (clampCamera viewport imgSize c) =
      clampCamera viewport imgSize c := by
  unfold clampCamera
  by_cases h : viewport.w ≤ 0 ∨ viewport.h ≤ 0
  · simp [h, clampNum_idem]
  · simp [h, clampNum_idem]

/-- C9: when the recorded viewport width or height is not positive,
`clampCamera` returns its input with only the scale clamped to
`[MIN_ZOOM, MAX_ZOOM]`, leaving `tx` and `ty` unchanged. -/
theorem clampCamera_zeroViewport (viewport imgSize : Size) (c : Camera)
    (h : viewport.w ≤ 0 ∨ viewport.h ≤ 0) :
    clampCamera viewport imgSize c =
      { scale := clampNum c.scale MIN_ZOOM MAX_ZOOM, tx := c.tx, ty := c.ty } := by
  simp [clampCamera, h]

/-- C9 witness: a concrete zero-width viewport instance. -/
theorem clampCamera_zeroViewport_witness :
    clampCamera ⟨0, 100⟩ ⟨200, 100⟩ ⟨10, 5, 7⟩ =
      { scale := clampNum 10 MIN_ZOOM MAX_ZOOM, tx := 5, ty := 7 } :=
  clampCamera_zeroViewport ⟨0, 100⟩ ⟨200, 100⟩ ⟨10, 5, 7⟩ (Or.inl le_rfl)

/-- C3: for a camera with nonzero scale, when the client point's
unclamped map-space coordinates lie inside the image bounds
`[0,w]×[0,h]`, `clientToNormalized` succeeds and rendering its output
through the `PinsOverlay` formula puts the pin back at the original
client point (the pin position is container-relative, so the
container origin is added back to express it in client space). -/
theorem clientToNormalized_roundTrip (camera : Camera) (imgSize : Size)
    (rectLeft rectTop clientX clientY : ℚ)
    (hs : camera.scale ≠ 0) (hw : 0 < imgSize.w) (hh : 0 < imgSize.h)
    (hx0 : 0 ≤ (clientX - rectLeft - camera.tx) / camera.scale)
    (hx1 : (clientX - rectLeft - camera.tx) / camera.scale ≤ imgSize.w)
    (hy0 : 0 ≤ (clientY - rectTop - camera.ty) / camera.scale)
    (hy1 : (clientY - rectTop - camera.ty) / camera.scale ≤ imgSize.h) :
    ∃ n : ℚ × ℚ,
      clientToNormalized (some (rectLeft, rectTop)) camera imgSize clientX clientY
          = some n ∧
      (pinScreenPos camera imgSize n.1 n.2).1 + rectLeft = clientX ∧
      (pinScreenPos camera imgSize n.1 n.2).2 + rectTop = clientY := by
  refine ⟨_, rfl, ?_, ?_⟩ <;> simp only [pinScreenPos, clientToNormalized, clamp01]
  · rw [max_eq_right (div_nonneg hx0 hw.le),
      min_eq_right ((div_le_one hw).mpr hx1)]
    field_simp
    ring
  · rw [max_eq_right (div_nonneg hy0 hh.le),
      min_eq_right ((div_le_one hh).mpr hy1)]
    field_simp
    ring

/-- C3 witness: camera `(2, 10, 20)`, container origin `(5, 7)`,
image `100×100`, client point `(115, 127)` (map point `(50, 50)`). -/
theorem clientToNormalized_roundTrip_witness :
    ∃ n : ℚ × ℚ,
      clientToNormalized (some (5, 7)) ⟨2, 10, 20⟩ ⟨100, 100⟩ 115 127 = some n ∧
      (pinScreenPos ⟨2, 10, 20⟩ ⟨100, 100⟩ n.1 n.2).1 + 5 = 115 ∧
      (pinScreenPos ⟨2, 10, 20⟩ ⟨100, 100⟩ n.1 n.2).2 + 7 = 127 :=
  clientToNormalized_roundTrip ⟨2, 10, 20⟩ ⟨100, 100⟩ 5 7 115 127
    (by norm_num) (by norm_num) (by norm_num)
    (by norm_num) (by norm_num) (by norm_num) (by norm_num)

/-- C2 counterexample: zooming out to `MIN_ZOOM = 1/4` (a scale within
`[MIN_ZOOM, MAX_ZOOM]`) with the pivot at the bottom-right corner of a
`100×100` viewport over a `100×100` image at camera `(1, 0, 0)` makes
`clampCamera` saturate the translation, so the map point that was under
the pivot (map `(100, 100)`) does not stay at the pivot's screen
position: it ends up at `x = 37.5`, not `100`. -/
theorem zoomAt_pivot_counterexample :
    MIN_ZOOM ≤ (1/4 : ℚ) ∧ (1/4 : ℚ) ≤ MAX_ZOOM ∧
    ¬ (((100:ℚ) - 0 - 0) / 1 *
          (zoomAt (some (0, 0)) ⟨100, 100⟩ ⟨100, 100⟩ ⟨1, 0, 0⟩ (1/4) 100 100).scale +
        (zoomAt (some (0, 0)) ⟨100, 100⟩ ⟨100, 100⟩ ⟨1, 0, 0⟩ (1/4) 100 100).tx + 0
        = 100) := by
  norm_num [zoomAt, zoomAtUnclamped, clampCamera, clampNum,
    MIN_ZOOM, MAX_ZOOM, min_def, max_def]

/-- C2 amended: `zoomAt(s, p)` with `s ∈ [MIN_ZOOM, MAX_ZOOM]` and a
nonzero current scale keeps the map-space point that was under the
pivot at the same screen position, provided `clampCamera` leaves the
computed camera unchanged (when the translation clamp saturates, the
pivot moves, as the counterexample shows). -/
theorem zoomAt_pivot_fixed (viewport imgSize : Size) (prev : Camera)
    (nextScale clientX clientY rectLeft rectTop : ℚ)
    (hs : prev.scale ≠ 0)
    (hlo : MIN_ZOOM ≤ nextScale) (hhi : nextScale ≤ MAX_ZOOM)
    (hclamp : clampCamera viewport imgSize
        (zoomAtUnclamped prev nextScale (clientX - rectLeft) (clientY - rectTop)) =
      zoomAtUnclamped prev nextScale (clientX - rectLeft) (clientY - rectTop)) :
    ((clientX - rectLeft - prev.tx) / prev.scale) * prev.scale + prev.tx + rectLeft
        = clientX ∧
    ((clientY - rectTop - prev.ty) / prev.scale) * prev.scale + prev.ty + rectTop
        = clientY ∧
    ((clientX - rectLeft - prev.tx) / prev.scale) *
          (zoomAt (some (rectLeft, rectTop)) viewport imgSize prev
            nextScale clientX clientY).scale +
        (zoomAt (some (rectLeft, rectTop)) viewport imgSize prev
          nextScale clientX clientY).tx + rectLeft = clientX ∧
    ((clientY - rectTop - prev.ty) / prev.scale) *
          (zoomAt (some (rectLeft, rectTop)) viewport imgSize prev
            nextScale clientX clientY).scale +
        (zoomAt (some (rectLeft, rectTop)) viewport imgSize prev
          nextScale clientX clientY).ty + rectTop = clientY := by
  have hscale : clampNum nextScale MIN_ZOOM MAX_ZOOM = nextScale := by
    rw [clampNum, max_eq_right hlo, min_eq_right hhi]
  refine ⟨?_, ?_, ?_, ?_⟩
  · rw [div_mul_cancel₀ _ hs]; ring
  · rw [div_mul_cancel₀ _ hs]; ring
  · show ((clientX - rectLeft - prev.tx) / prev.scale) *
        (clampCamera viewport imgSize
          (zoomAtUnclamped prev nextScale (clientX - rectLeft) (clientY - rectTop))).scale +
        (clampCamera viewport imgSize
          (zoomAtUnclamped prev nextScale (clientX - rectLeft) (clientY - rectTop))).tx
          + rectLeft = clientX
    rw [hclamp]; simp only [zoomAtUnclamped, hscale]; ring
  · show ((clientY - rectTop - prev.ty) / prev.scale) *
        (clampCamera viewport imgSize
          (zoomAtUnclamped prev nextScale (clientX - rectLeft) (clientY - rectTop))).scale +
        (clampCamera viewport imgSize
          (zoomAtUnclamped prev nextScale (clientX - rectLeft) (clientY - rectTop))).ty
          + rectTop = clientY
    rw [hclamp]; simp only [zoomAtUnclamped, hscale]; ring

/-- C2 amended witness: doubling the zoom about the viewport center of
a centered `100×100` image; the clamp leaves the computed camera
`(2, -50, -50)` unchanged and the pivot stays fixed. -/
theorem zoomAt_pivot_fixed_witness :
    ((50:ℚ) - 0 - 0) / 1 * 1 + 0 + 0 = 50 ∧
    ((50:ℚ) - 0 - 0) / 1 * 1 + 0 + 0 = 50 ∧
    ((50:ℚ) - 0 - 0) / 1 *
          (zoomAt (some (0, 0)) ⟨100, 100⟩ ⟨100, 100⟩ ⟨1, 0, 0⟩ 2 50 50).scale +
        (zoomAt (some (0, 0)) ⟨100, 100⟩ ⟨100, 100⟩ ⟨1, 0, 0⟩ 2 50 50).tx + 0 = 50 ∧
    ((50:ℚ) - 0 - 0) / 1 *
          (zoomAt (some (0, 0)) ⟨100, 100⟩ ⟨100, 100⟩ ⟨1, 0, 0⟩ 2 50 50).scale +
        (zoomAt (some (0, 0)) ⟨100, 100⟩ ⟨100, 100⟩ ⟨1, 0, 0⟩ 2 50 50).ty + 0 = 50 :=
  zoomAt_pivot_fixed ⟨100, 100⟩ ⟨100, 100⟩ ⟨1, 0, 0⟩ 2 50 50 0 0
    (by norm_num) (by norm_num [MIN_ZOOM]) (by norm_num [MAX_ZOOM])
    (by norm_num [zoomAtUnclamped, clampCamera, clampNum,
      MIN_ZOOM, MAX_ZOOM, min_def, max_def])

/-- A JavaScript value, for the data reaching the pin persistence
layer. `undefined` models `undefined` (and absent object properties);
finite numbers are `ℚ` and `nan` is the IEEE `NaN` number.
`JSON.parse` never produces `nan`, so it cannot occur in parsed route
payloads or store files; it exists because in-memory pin records can
carry `NaN` coordinates (see `pinToJVal`). -/
inductive JVal where
  | undefined
  | null
  | bool (b : Bool)
  | num (q : ℚ)
  | nan
  | str (s : String)
  | arr (elems : List JVal)
  | obj (fields : List (String × JVal))

/-- JS property access `v[key]`: a present object field, otherwise
`undefined` (arrays and scalars have no named `id`/`x`/… fields). -/
def getField (v : JVal) (key : String) : JVal :=
  match v with
  | .obj fields =>
    match fields.lookup key with
    | some x => x
    | none => .undefined
  | _ => .undefined

/-- `Boolean(p && typeof p === "object")`: true exactly for objects and
arrays (`typeof null` is `"object"` but `null` is falsy). -/
def isObjectLike : JVal → Bool
  | .obj _ => true
  | .arr _ => true
  | _ => false

/-- JS `String.prototype.trim`, modelled over the character list so
that it evaluates in the kernel. -/
def jsTrim (s : String) : String :=
  String.mk
    (((s.data.dropWhile Char.isWhitespace).reverse.dropWhile Char.isWhitespace).reverse)

/-- The JS `ToNumber` coercion applied by `Math.min`/`Math.max`
inside the pins library's `clamp01`: numbers pass through, `null` is
`0`, booleans are `0`/`1`, and `undefined` and `NaN` give `NaN`
(`none`) — all exact per the spec. String and composite coercion is
abstracted to `NaN`; this is inexact for numeric strings, but no
statement in this file concerns a string-valued coordinate: wherever
the abstraction is in play, the program's outcome (a clamped number
or `NaN`) and the model's (`NaN`) both satisfy the coordinate
conclusions proved below, and every counterexample uses a missing
field, whose coercion to `NaN` is exact. -/
def toNumber : JVal → Option ℚ
  | .num q => some q
  | .null => some 0
  | .bool b => some (if b then 1 else 0)
  | _ => none

/-- `clamp01(value)` from `lib/worldMapPins` applied to a raw property
value: `Number.isNaN(value)` is checked first and does not coerce, so
it is true only for the actual `NaN` number (yielding `0.5`); any
other value reaches `Math.min(1, Math.max(0, value))`, whose
`ToNumber` coercion turns `undefined` (a missing field) into `NaN`,
which propagates through `min`/`max` (`none` here). -/
def clamp01J (v : JVal) : Option ℚ :=
  match v with
  | .nan => some (1/2)
  | _ =>
    match toNumber v with
    | none => none
    | some q => some (clamp01 q)

/-- The pin record produced by `normalizePin`. The TS type declares
`id : string` and `x, y : number`, but `readWorldMapPins` casts
unchecked JSON into it and `normalizePin` spreads the input record:
the stored `id` is kept as the raw value it had, and a coordinate is
the `NaN` number (`none` here) when the raw field is missing or does
not coerce to a number. -/
structure WorldMapPin where
  id : JVal
  x : Option ℚ
  y : Option ℚ
  title : String
  subtitle : Option String
  description : Option String
  mdxCategory : Option String
  mdxSlug : Option String

/-- `(pin.title ?? "").trim() || "Untitled"`: nullish titles become
`""`, a blank trim falls back to `"Untitled"`; calling `.trim()` on a
non-string, non-nullish value throws a `TypeError` (`none`). -/
def titleField : JVal → Option String
  | .undefined => some "Untitled"
  | .null => some "Untitled"
  | .str s => some (if jsTrim s = "" then "Untitled" else jsTrim s)
  | _ => none

/-- `pin.subtitle?.trim() || undefined` (same for the other optional
fields): nullish stays absent, a blank trim is coerced to absent, and
a non-string, non-nullish value throws a `TypeError` (`none`). -/
def optStrField : JVal → Option (Option String)
  | .undefined => some none
  | .null => some none
  | .str s => some (if jsTrim s = "" then none else some (jsTrim s))
  | _ => none

/-- `normalizePin(pin)` from `lib/worldMapPins`: spreads the record,
applies `clamp01` to the raw `x`/`y` (an actual `NaN` number becomes
`0.5`, but a missing or non-coercible field becomes `NaN`, because
`Number.isNaN` does not coerce), trims the title with the
`"Untitled"` fallback and trims-or-drops the optional string fields.
Returns `none` when the JS code would throw a `TypeError`. -/
def normalizePin (p : JVal) : Option WorldMapPin := do
  let title ← titleField (getField p "title")
  let subtitle ← optStrField (getField p "subtitle")
  let description ← optStrField (getField p "description")
  let mdxCategory ← optStrField (getField p "mdxCategory")
  let mdxSlug ← optStrField (getField p "mdxSlug")
  pure
    { id := getField p "id"
    , x := clamp01J (getField p "x")
    , y := clamp01J (getField p "y")
    , title := title
    , subtitle := subtitle
    , description := description
    , mdxCategory := mdxCategory
    , mdxSlug := mdxSlug }

/-- Applies `f` along a list, stopping at the first failure: the shape
of both the `validatePins` for-loop (first invalid item returns
`null`) and a `.map` whose callback may throw (the exception
propagates). -/
def mapOrNone (f : α → Option β) : List α → Option (List β)
  | [] => some []
  | x :: xs =>
    match f x with
    | none => none
    | some y =>
      match mapOrNone f xs with
      | none => none
      | some ys => some (y :: ys)

/-- `typeof v === "string" ? v : undefined`, the coercion `validatePins`
applies to the optional fields. -/
def strOrUndef : JVal → JVal
  | .str s => .str s
  | _ => .undefined

/-- One iteration of the `validatePins` loop: the item must be
object-like, `id` a string with a non-empty trim, `x`/`y` numbers and
`title` a string; non-string optional fields are coerced to
`undefined`, and the built record is normalized. -/
def validatePinItem (item : JVal) : Option WorldMapPin :=
  if !(isObjectLike item) then none
  else
    match getField item "id" with
    | .str id =>
      if jsTrim id = "" then none
      else
        match getField item "x", getField item "y" with
        | .num x, .num y =>
          match getField item "title" with
          | .str title =>
            normalizePin (.obj
              [ ("id", .str (jsTrim id)), ("x", .num x), ("y", .num y)
              , ("title", .str title)
              , ("subtitle", strOrUndef (getField item "subtitle"))
              , ("description", strOrUndef (getField item "description"))
              , ("mdxCategory", strOrUndef (getField item "mdxCategory"))
              , ("mdxSlug", strOrUndef (getField item "mdxSlug")) ])
          | _ => none
        | _, _ => none
    | _ => none

/-- `validatePins(input)`: `null` unless the input is an array and
every element passes `validatePinItem`. -/
def validatePins (input : JVal) : Option (List WorldMapPin) :=
  match input with
  | .arr items => mapOrNone validatePinItem items
  | _ => none

/-- The state of the backing `world-map-pins.json` file as
`readWorldMapPins` can encounter it: absent (`ensureStore` seeds
`{"pins": []}`), empty (`raw ? JSON.parse(raw) : {}`), unparseable
(`JSON.parse` throws, the `catch` returns `[]`), or parsed JSON. -/
inductive FileState where
  | missing
  | empty
  | invalid
  | json (v : JVal)

/-- `Array.isArray(parsed) ? parsed : parsed.pins`, followed by the
`Array.isArray(pins)` check; reading `.pins` of `null` throws, which
the surrounding `catch` turns into `[]` (`none` here). -/
def storePins : JVal → Option (List JVal)
  | .arr l => some l
  | .null => none
  | v =>
    match getField v "pins" with
    | .arr l => some l
    | _ => none

/-- `readWorldMapPins()`: total over every file state; failures and
non-list shapes yield `[]`, non-object entries are filtered out, and
the rest are normalized (a `TypeError` inside the `.map` is caught by
the surrounding `try`, yielding `[]`). -/
def readWorldMapPins : FileState → List WorldMapPin
  | .missing => []
  | .empty => []
  | .invalid => []
  | .json v =>
    match storePins v with
    | none => []
    | some pins =>
      match mapOrNone normalizePin (pins.filter isObjectLike) with
      | some l => l
      | none => []

/-- An optional string field of a typed pin record, as a JS value. -/
def optStrJ : Option String → JVal
  | none => .undefined
  | some s => .str s

/-- A coordinate of a typed pin record as a JS number value (`none`
is the `NaN` number). -/
def coordJ : Option ℚ → JVal
  | none => .nan
  | some q => .num q

/-- Embeds a typed pin record back into a JS value (absent optional
fields are `undefined`), for re-feeding `normalizePin` the way
`writeWorldMapPins` maps it over an already-typed list. -/
def pinToJVal (p : WorldMapPin) : JVal :=
  .obj
    [ ("id", p.id), ("x", coordJ p.x), ("y", coordJ p.y), ("title", .str p.title)
    , ("subtitle", optStrJ p.subtitle), ("description", optStrJ p.description)
    , ("mdxCategory", optStrJ p.mdxCategory), ("mdxSlug", optStrJ p.mdxSlug) ]

/-- `writeWorldMapPins(pins)`: the stored document holds
`pins.map(normalizePin)`; `none` would be an uncaught `TypeError`
(impossible for typed input, proven below). -/
def writeWorldMapPins (pins : List WorldMapPin) : Option (List WorldMapPin) :=
  mapOrNone normalizePin (pins.map pinToJVal)

/-- The responses of the `POST /api/world-map-pins` route handler. -/
inductive PostResult where
  | unauthorized
  | invalidPins
  | ok (pins : List WorldMapPin)
  | serverError

/-- `body?.pins` for the parsed request body (`none` = `req.json()`
rejected, caught into `body = null`). -/
def postBodyPins : Option JVal → JVal
  | none => .undefined
  | some v => getField v "pins"

/-- The `POST` handler: 401 without the admin cookie; 400 with the
store untouched when `validatePins` rejects; otherwise replaces the
whole stored collection with the normalized validated list. -/
def POST (isAdmin : Bool) (body : Option JVal) (store : List WorldMapPin) :
    List WorldMapPin × PostResult :=
  if !isAdmin then (store, .unauthorized)
  else
    match validatePins (postBodyPins body) with
    | none => (store, .invalidPins)
    | some pins =>
      match writeWorldMapPins pins with
      | some stored => (stored, .ok pins)
      | none => (store, .serverError)

/-- An optional field per the spec's words: absent, or a string. -/
def claimOptionalString : JVal → Bool
  | .undefined => true
  | .str _ => true
  | _ => false

/-- The per-pin shape condition exactly as the spec sentence words it:
an object with `id` a non-empty string, `x` and `y` numbers, `title` a
string, and every other (optional) field a string when present. -/
def claimPinShape (item : JVal) : Bool :=
  match item with
  | .obj _ =>
    (match getField item "id" with | .str s => s != "" | _ => false)
      && (match getField item "x" with | .num _ => true | _ => false)
      && (match getField item "y" with | .num _ => true | _ => false)
      && (match getField item "title" with | .str _ => true | _ => false)
      && claimOptionalString (getField item "subtitle")
      && claimOptionalString (getField item "description")
      && claimOptionalString (getField item "mdxCategory")
      && claimOptionalString (getField item "mdxSlug")
  | _ => false

/-- The payload shape condition as the spec words it: an array whose
every element satisfies `claimPinShape`. -/
def claimPinsShape (input : JVal) : Bool :=
  match input with
  | .arr items => items.all claimPinShape
  | _ => false

/-- The payload shape `validatePins` actually accepts: object-like
elements whose `id` is a string with a non-empty **trim**, `x`/`y`
numbers and `title` a string — optional fields are never checked. -/
def validPinShape (item : JVal) : Bool :=
  isObjectLike item
    && (match getField item "id" with | .str s => jsTrim s != "" | _ => false)
    && (match getField item "x" with | .num _ => true | _ => false)
    && (match getField item "y" with | .num _ => true | _ => false)
    && (match getField item "title" with | .str _ => true | _ => false)

/-- Array of `validPinShape` elements. -/
def validPinsShape (input : JVal) : Bool :=
  match input with
  | .arr items => items.all validPinShape
  | _ => false

/-- The invariant as the spec claims it: coordinates are numbers in
`[0,1]` and the title non-empty (a `none` coordinate is `NaN`, which
is not a number in `[0,1]`). -/
def pinNormalized (q : WorldMapPin) : Prop :=
  (∃ r, q.x = some r ∧ 0 ≤ r ∧ r ≤ 1) ∧
  (∃ r, q.y = some r ∧ 0 ≤ r ∧ r ≤ 1) ∧ q.title ≠ ""

/-- The coordinate guarantee `normalizePin` actually provides:
whenever a coordinate is a number (not `NaN`), it lies in `[0,1]`. -/
def pinCoordsClamped (q : WorldMapPin) : Prop :=
  (∀ r, q.x = some r → 0 ≤ r ∧ r ≤ 1) ∧
  (∀ r, q.y = some r → 0 ≤ r ∧ r ≤ 1)

/-- The input pin's title is blank or missing: absent, `null`, or a
string that trims to empty. -/
def titleBlankOrMissing (p : JVal) : Prop :=
  getField p "title" = .undefined ∨ getField p "title" = .null ∨
    ∃ s, getField p "title" = .str s ∧ jsTrim s = ""

theorem clamp01_mem (q : ℚ) : 0 ≤ clamp01 q ∧ clamp01 q ≤ 1 :=
  ⟨le_min (by norm_num) (le_max_left 0 q), min_le_left 1 _⟩

theorem clamp01J_mem {v : JVal} {r : ℚ} (h : clamp01J v = some r) :
    0 ≤ r ∧ r ≤ 1 := by
  cases v with
  | nan =>
    simp only [clamp01J, Option.some.injEq] at h
    subst h
    norm_num
  | num q =>
    simp only [clamp01J, toNumber, Option.some.injEq] at h
    subst h
    exact clamp01_mem q
  | null =>
    simp only [clamp01J, toNumber, Option.some.injEq] at h
    subst h
    exact clamp01_mem 0
  | bool b =>
    simp only [clamp01J, toNumber, Option.some.injEq] at h
    subst h
    exact clamp01_mem _
  | undefined => simp [clamp01J, toNumber] at h
  | str u => simp [clamp01J, toNumber] at h
  | arr l => simp [clamp01J, toNumber] at h
  | obj f => simp [clamp01J, toNumber] at h

theorem titleField_ne_empty {t : JVal} {s : String}
    (h : titleField t = some s) : s ≠ "" := by
  cases t with
  | undefined => cases h; decide
  | null => cases h; decide
  | str u =>
    simp only [titleField, Option.some.injEq] at h
    subst h
    split
    · decide
    · assumption
  | bool b => simp [titleField] at h
  | num q => simp [titleField] at h
  | nan => simp [titleField] at h
  | arr l => simp [titleField] at h
  | obj f => simp [titleField] at h

theorem mapOrNone_isSome (f : α → Option β) (xs : List α) :
    (mapOrNone f xs).isSome = xs.all fun x => (f x).isSome := by
  induction xs with
  | nil => rfl
  | cons x xs ih =>
    simp only [mapOrNone, List.all_cons]
    cases hfx : f x with
    | none => simp [hfx]
    | some y =>
      cases hrest : mapOrNone f xs with
      | none => simp [hfx, ← ih, hrest]
      | some ys => simp [hfx, ← ih, hrest]

theorem mapOrNone_mem {f : α → Option β} :
    ∀ {xs : List α} {l : List β}, mapOrNone f xs = some l →
      ∀ b ∈ l, ∃ a ∈ xs, f a = some b := by
  intro xs
  induction xs with
  | nil =>
    intro l h b hb
    cases h
    cases hb
  | cons x xs ih =>
    intro l h b hb
    simp only [mapOrNone] at h
    cases hfx : f x with
    | none => rw [hfx] at h; cases h
    | some y =>
      rw [hfx] at h
      cases hrest : mapOrNone f xs with
      | none => rw [hrest] at h; cases h
      | some ys =>
        rw [hrest] at h
        cases h
        cases hb with
        | head => exact ⟨x, List.mem_cons_self x xs, hfx⟩
        | tail _ htail =>
          obtain ⟨a, ha, hfa⟩ := ih hrest b htail
          exact ⟨a, List.mem_cons_of_mem x ha, hfa⟩

theorem optStrField_strOrUndef_isSome (v : JVal) :
    (optStrField (strOrUndef v)).isSome = true := by
  cases v <;> simp [strOrUndef, optStrField]

theorem optStrField_optStrJ_isSome (o : Option String) :
    (optStrField (optStrJ o)).isSome = true := by
  cases o <;> simp [optStrJ, optStrField]

theorem normalizePin_isSome_iff (p : JVal) :
    (normalizePin p).isSome = ((titleField (getField p "title")).isSome
      && (optStrField (getField p "subtitle")).isSome
      && (optStrField (getField p "description")).isSome
      && (optStrField (getField p "mdxCategory")).isSome
      && (optStrField (getField p "mdxSlug")).isSome) := by
  unfold normalizePin
  cases h0 : titleField (getField p "title") with
  | none => simp [h0]
  | some t =>
    cases h1 : optStrField (getField p "subtitle") with
    | none => simp [h0, h1]
    | some o1 =>
      cases h2 : optStrField (getField p "description") with
      | none => simp [h0, h1, h2]
      | some o2 =>
        cases h3 : optStrField (getField p "mdxCategory") with
        | none => simp [h0, h1, h2, h3]
        | some o3 =>
          cases h4 : optStrField (getField p "mdxSlug") with
          | none => simp [h0, h1, h2, h3, h4]
          | some o4 => simp [h0, h1, h2, h3, h4]

theorem validatePinItem_isSome (item : JVal) :
    (validatePinItem item).isSome = validPinShape item := by
  unfold validatePinItem validPinShape
  cases hobj : isObjectLike item with
  | false => simp [hobj]
  | true =>
    simp only [hobj, Bool.not_true, Bool.false_eq_true, if_false, Bool.true_and]
    cases hid : getField item "id" with
    | str s =>
      by_cases hids : jsTrim s = ""
      · simp [hids]
      · simp only [hids, if_false, bne_iff_ne, ne_eq, not_false_eq_true, Bool.true_and]
        cases hx : getField item "x" <;>
          cases hy : getField item "y" <;>
            simp only [Bool.true_and, Bool.false_and, Bool.and_false, Bool.and_true] <;>
              try rfl
        cases hti : getField item "title" <;> simp only [Bool.and_true, Bool.and_false] <;>
          try rfl
        · rw [normalizePin_isSome_iff]
          simp +decide [getField, List.lookup, titleField, optStrField_strOrUndef_isSome]
          exact hids
    | undefined => simp
    | null => simp
    | bool b => simp
    | num q => simp
    | nan => simp
    | arr l => simp
    | obj f => simp

theorem normalizePin_inv {p : JVal} {q : WorldMapPin}
    (h : normalizePin p = some q) :
    q.title ≠ "" ∧ (titleBlankOrMissing p → q.title = "Untitled") ∧
    pinCoordsClamped q := by
  simp only [normalizePin, Option.bind_eq_bind, Option.bind_eq_some, Option.pure_def,
    Option.some.injEq] at h
  obtain ⟨t, ht, o1, h1, o2, h2, o3, h3, o4, h4, hq⟩ := h
  subst hq
  refine ⟨titleField_ne_empty ht, ?_, ?_⟩
  · intro hb
    rcases hb with hb | hb | ⟨s, hb, hs⟩ <;> rw [hb] at ht
    · cases ht; rfl
    · cases ht; rfl
    · simp only [titleField, hs, if_pos, Option.some.injEq] at ht
      exact ht.symm
  · exact ⟨fun r hr => clamp01J_mem hr, fun r hr => clamp01J_mem hr⟩

theorem validatePinItem_eq_normalizePin {item : JVal} {q : WorldMapPin}
    (h : validatePinItem item = some q) : ∃ p, normalizePin p = some q := by
  unfold validatePinItem at h
  by_cases hobj : isObjectLike item
  · simp only [hobj, Bool.not_true, Bool.false_eq_true, if_false] at h
    cases hid : getField item "id" <;> simp only [hid] at h <;>
      try exact Option.noConfusion h
    next s =>
      by_cases hids : jsTrim s = ""
      · rw [if_pos hids] at h
        exact Option.noConfusion h
      · rw [if_neg hids] at h
        cases hx : getField item "x" <;> simp only [hx] at h <;>
          try exact Option.noConfusion h
        next qx =>
          cases hy : getField item "y" <;> simp only [hy] at h <;>
            try exact Option.noConfusion h
          next qy =>
            cases hti : getField item "title" <;> simp only [hti] at h <;>
              try exact Option.noConfusion h
            next t => exact ⟨_, h⟩
  · rw [Bool.not_eq_true] at hobj
    rw [hobj] at h
    exact Option.noConfusion h

theorem writeWorldMapPins_isSome (pins : List WorldMapPin) :
    ∃ stored, writeWorldMapPins pins = some stored := by
  rw [← Option.isSome_iff_exists]
  unfold writeWorldMapPins
  rw [mapOrNone_isSome, List.all_eq_true]
  intro x hx
  obtain ⟨p, _, rfl⟩ := List.mem_map.mp hx
  rw [normalizePin_isSome_iff]
  simp +decide [pinToJVal, getField, List.lookup, titleField, optStrField_optStrJ_isSome]

theorem readWorldMapPins_mem {fs : FileState} {q : WorldMapPin}
    (hq : q ∈ readWorldMapPins fs) : q.title ≠ "" ∧ pinCoordsClamped q := by
  cases fs with
  | missing => exact absurd hq (List.not_mem_nil q)
  | empty => exact absurd hq (List.not_mem_nil q)
  | invalid => exact absurd hq (List.not_mem_nil q)
  | json v =>
    simp only [readWorldMapPins] at hq
    cases hsp : storePins v with
    | none => simp only [hsp] at hq; exact absurd hq (List.not_mem_nil q)
    | some pins =>
      simp only [hsp] at hq
      cases hm : mapOrNone normalizePin (pins.filter isObjectLike) with
      | none => simp only [hm] at hq; exact absurd hq (List.not_mem_nil q)
      | some l =>
        simp only [hm] at hq
        obtain ⟨a, _, ha⟩ := mapOrNone_mem hm q hq
        have h := normalizePin_inv ha
        exact ⟨h.1, h.2.2⟩

/-- C5 counterexample: the payload
`[{id: " ", x: 0, y: 0, title: "t"}]` satisfies the claim's shape
condition (`id` is the non-empty string `" "`, `x`/`y` numbers,
`title` a string, no other fields) yet `validatePins` returns `null`,
because the code additionally requires `id.trim()` to be non-empty. -/
theorem validatePins_claim_counterexample :
    claimPinsShape (.arr [.obj
      [("id", .str " "), ("x", .num 0), ("y", .num 0), ("title", .str "t")]]) = true ∧
    validatePins (.arr [.obj
      [("id", .str " "), ("x", .num 0), ("y", .num 0), ("title", .str "t")]]) = none :=
  ⟨rfl, rfl⟩

/-- C5 amended: `validatePins` returns a non-null list exactly when the
input is an array of object-like items whose `id` is a string that is
non-empty after trimming, `x` and `y` are numbers and `title` is a
string (non-string optional fields are coerced to absent, not
rejected); on an invalid payload the POST handler responds with a
validation error and the store is untouched, without the admin cookie
it responds 401, and on success the whole stored collection is
replaced. -/
theorem validatePins_spec :
    (∀ input, (validatePins input).isSome = validPinsShape input) ∧
    (∀ body store, validatePins (postBodyPins body) = none →
        POST true body store = (store, .invalidPins)) ∧
    (∀ body store pins, validatePins (postBodyPins body) = some pins →
        ∃ stored, writeWorldMapPins pins = some stored ∧
          POST true body store = (stored, .ok pins)) ∧
    (∀ body store, POST false body store = (store, .unauthorized)) := by
  refine ⟨?_, ?_, ?_, ?_⟩
  · intro input
    cases input <;> try rfl
    case arr items =>
      show (mapOrNone validatePinItem items).isSome = items.all validPinShape
      rw [mapOrNone_isSome]
      simp only [validatePinItem_isSome]
  · intro body store h
    simp [POST, h]
  · intro body store pins h
    obtain ⟨stored, hst⟩ := writeWorldMapPins_isSome pins
    exact ⟨stored, hst, by simp [POST, h, hst]⟩
  · intro body store
    rfl

/-- C5 witness: a non-array `pins` field is rejected with the store
untouched; the empty list is accepted and stored. -/
theorem validatePins_spec_witness :
    POST true (some (.num 3)) [] = ([], .invalidPins) ∧
    (∃ stored, writeWorldMapPins [] = some stored ∧
      POST true (some (.obj [("pins", .arr [])])) [] = (stored, .ok [])) :=
  ⟨validatePins_spec.2.1 (some (.num 3)) [] rfl,
   validatePins_spec.2.2.1 (some (.obj [("pins", .arr [])])) [] [] rfl⟩

/-- C6 (code bug): the claimed `[0,1]` invariant fails on the
`readWorldMapPins` path: for a store entry with no `x`/`y` fields,
`Number.isNaN(undefined)` is false (it does not coerce), so `clamp01`
skips its `0.5` fallback and `Math.max(0, undefined)` yields `NaN` —
the returned pin's coordinates are `NaN`, not numbers in `[0,1]`,
contradicting the `x: number // normalized 0..1` declaration on the
type and the evident sanitizing intent of the `NaN` branch. The title
half of the claim (blank or missing becomes `"Untitled"`, never
empty) does hold, as `normalizePin_inv` shows. -/
theorem readWorldMapPins_nan_coordinate :
    readWorldMapPins (.json (.arr [.obj [("id", .str "a"), ("title", .str "t")]])) =
      [{ id := JVal.str "a", x := none, y := none, title := "t", subtitle := none
       , description := none, mdxCategory := none, mdxSlug := none }] ∧
    ¬ pinNormalized
        { id := JVal.str "a", x := none, y := none, title := "t", subtitle := none
        , description := none, mdxCategory := none, mdxSlug := none } := by
  refine ⟨rfl, ?_⟩
  intro hpn
  simp only [pinNormalized] at hpn
  obtain ⟨⟨r, hr, _⟩, _, _⟩ := hpn
  cases hr

/-- C10 counterexample: a store entry with a missing `x` comes back
with a `NaN` coordinate (`Number.isNaN(undefined)` is false, so the
`0.5` fallback in `clamp01` is skipped and `Math.max(0, undefined)`
yields `NaN`), refuting the reading that every returned pin is
normalized to coordinates in `[0,1]`. -/
theorem readWorldMapPins_normalized_counterexample :
    readWorldMapPins (.json (.arr [.obj [("title", .str "u")]])) =
      [{ id := JVal.undefined, x := none, y := none, title := "u", subtitle := none
       , description := none, mdxCategory := none, mdxSlug := none }] ∧
    ¬ pinNormalized
        { id := JVal.undefined, x := none, y := none, title := "u", subtitle := none
        , description := none, mdxCategory := none, mdxSlug := none } := by
  refine ⟨rfl, ?_⟩
  intro hpn
  simp only [pinNormalized] at hpn
  obtain ⟨⟨r, hr, _⟩, _, _⟩ := hpn
  cases hr

/-- C10 amended: `readWorldMapPins` is total over every state of the
backing file: a missing, empty or unparseable file yields `[]`, as
does parsed JSON that is neither an array nor an object with a `pins`
array (including `null`); non-object entries are filtered out without
effect; and every returned pin has a non-empty (trimmed or defaulted)
title and every numeric coordinate clamped to `[0,1]` — a missing or
non-coercible stored coordinate surfaces as `NaN`, as the
counterexample shows. -/
theorem readWorldMapPins_total :
    readWorldMapPins .missing = [] ∧
    readWorldMapPins .empty = [] ∧
    readWorldMapPins .invalid = [] ∧
    readWorldMapPins (.json .null) = [] ∧
    (∀ v, storePins v = none → readWorldMapPins (.json v) = []) ∧
    (∀ l, readWorldMapPins (.json (.arr l)) =
        readWorldMapPins (.json (.arr (l.filter isObjectLike)))) ∧
    (∀ fs q, q ∈ readWorldMapPins fs → q.title ≠ "" ∧ pinCoordsClamped q) := by
  refine ⟨rfl, rfl, rfl, rfl, ?_, ?_, fun fs q hq => readWorldMapPins_mem hq⟩
  · intro v h
    simp only [readWorldMapPins, h]
  · intro l
    simp only [readWorldMapPins, storePins, List.filter_filter, Bool.and_self]

/-- C10 witness: a numeric store document yields `[]`; a store whose
single entry is an object with a blank title and no coordinates
yields the pin titled `"Untitled"` with `NaN` coordinates, which
vacuously satisfy the numeric-clamp guarantee. -/
theorem readWorldMapPins_total_witness :
    readWorldMapPins (.json (.num 3)) = [] ∧
    (({ id := JVal.undefined, x := none, y := none, title := "Untitled"
      , subtitle := none, description := none
      , mdxCategory := none, mdxSlug := none } : WorldMapPin).title ≠ "" ∧
      pinCoordsClamped { id := JVal.undefined, x := none, y := none, title := "Untitled"
                       , subtitle := none, description := none
                       , mdxCategory := none, mdxSlug := none }) :=
  ⟨readWorldMapPins_total.2.2.2.2.1 (.num 3) rfl,
   readWorldMapPins_total.2.2.2.2.2.2 (.json (.arr [.obj [("title", .str "")]]))
     _ (List.mem_singleton_self _)⟩

/-- The `dragCandidateRef` record: pointer-down position, owning pin
and pointer, and whether the drag threshold has been crossed. -/
structure DragCandidate where
  id : String
  pointerId : ℕ
  startClientX : ℚ
  startClientY : ℚ
  started : Bool
  deriving DecidableEq, Repr

/-- The fields of a pointer event the pin handlers read. -/
structure PointerEv where
  pointerId : ℕ
  clientX : ℚ
  clientY : ℚ
  buttons : ℕ
  button : ℤ
  deriving DecidableEq, Repr

/-- The gesture-machine state: `dragCandidateRef`, the `draggingId`
state and `suppressNextClickRef` (all initially null). -/
structure PinGesture where
  candidate : Option DragCandidate
  draggingId : Option String
  suppressNextClick : Option String
  deriving DecidableEq, Repr

/-- `onPinPointerDown(event, id)`: in edit mode, a primary-button press
records a fresh (not-started) drag candidate at the event position.
(`setSelectedId(id)` and pointer capture act on state outside the
gesture machine.) -/
def onPinPointerDown (isEditing : Bool) (ev : PointerEv) (id : String)
    (g : PinGesture) : PinGesture :=
  if !isEditing then g
  else if ev.button ≠ 0 then g
  else
    { g with candidate := some ⟨id, ev.pointerId, ev.clientX, ev.clientY, false⟩ }

/-- `onPinPointerMove(event)`: drops the candidate when the primary
button is no longer held; otherwise arms the drag once the squared
displacement from the start reaches `DRAG_THRESHOLD_PX²`, and while
armed dispatches a pin-position update (the second component,
consumed by `updateFromPointer`). -/
def onPinPointerMove (isEditing : Bool) (ev : PointerEv) (g : PinGesture) :
    PinGesture × Option (String × ℚ × ℚ) :=
  if !isEditing then (g, none)
  else
    match g.candidate with
    | none => (g, none)
    | some candidate =>
      if candidate.id = "" then (g, none)
      else if ev.buttons &&& 1 ≠ 1 then
        ({ g with draggingId := none, candidate := none }, none)
      else if !candidate.started then
        let dx := ev.clientX - candidate.startClientX
        let dy := ev.clientY - candidate.startClientY
        if dx * dx + dy * dy < DRAG_THRESHOLD_PX * DRAG_THRESHOLD_PX then (g, none)
        else
          ({ g with
              candidate := some { candidate with started := true },
              draggingId := some candidate.id },
            some (candidate.id, ev.clientX, ev.clientY))
      else (g, some (candidate.id, ev.clientX, ev.clientY))

/-- `onPinPointerUp(event)`: a started candidate finalizes a drag
(writing the final position, saving in edit mode, and suppressing the
pointer's synthetic click via `suppressNextClickRef`); otherwise the
release is a click (the synthetic click reaches `onPinClick`
unsuppressed). The Boolean records the drag-vs-click classification. -/
def onPinPointerUp (g : PinGesture) : PinGesture × Bool :=
  match g.candidate with
  | some c =>
    if c.started then
      ({ candidate := none, draggingId := none, suppressNextClick := some c.id }, true)
    else
      ({ candidate := none, draggingId := none,
         suppressNextClick := g.suppressNextClick }, false)
  | none =>
    ({ candidate := none, draggingId := none,
       suppressNextClick := g.suppressNextClick }, false)

/-- Folds a sequence of pointer-move events through the gesture
machine. -/
def processPinMoves (isEditing : Bool) (moves : List PointerEv)
    (g : PinGesture) : PinGesture :=
  moves.foldl (fun g ev => (onPinPointerMove isEditing ev g).1) g

theorem onPinPointerMove_below {ev : PointerEv} {g : PinGesture} {c : DragCandidate}
    (hc : g.candidate = some c) (hns : c.started = false)
    (hbtn : ev.buttons &&& 1 = 1)
    (hdist : (ev.clientX - c.startClientX) * (ev.clientX - c.startClientX) +
        (ev.clientY - c.startClientY) * (ev.clientY - c.startClientY) <
      DRAG_THRESHOLD_PX * DRAG_THRESHOLD_PX) :
    onPinPointerMove true ev g = (g, none) := by
  unfold onPinPointerMove
  simp only [Bool.not_true, Bool.false_eq_true, if_false, hc]
  by_cases hid : c.id = ""
  · simp [hid]
  · rw [if_neg hid, if_neg (by simp [hbtn]), hns]
    simp only [Bool.not_false, if_true]
    rw [if_pos hdist]

theorem onPinPointerMove_started_fst {ev : PointerEv} {g : PinGesture} {c : DragCandidate}
    (hc : g.candidate = some c) (hs : c.started = true)
    (hbtn : ev.buttons &&& 1 = 1) :
    (onPinPointerMove true ev g).1 = g := by
  unfold onPinPointerMove
  simp only [Bool.not_true, Bool.false_eq_true, if_false, hc]
  by_cases hid : c.id = ""
  · simp [hid]
  · rw [if_neg hid, if_neg (by simp [hbtn]), hs]
    simp

theorem processPinMoves_below {c : DragCandidate} :
    ∀ (moves : List PointerEv) (g : PinGesture),
    g.candidate = some c → c.started = false →
    (∀ ev ∈ moves, ev.buttons &&& 1 = 1 ∧
      (ev.clientX - c.startClientX) * (ev.clientX - c.startClientX) +
        (ev.clientY - c.startClientY) * (ev.clientY - c.startClientY) <
      DRAG_THRESHOLD_PX * DRAG_THRESHOLD_PX) →
    processPinMoves true moves g = g := by
  intro moves
  induction moves with
  | nil => intro g _ _ _; rfl
  | cons ev evs ih =>
    intro g hc hns h
    have hev := h ev (List.mem_cons_self ev evs)
    have hstep := onPinPointerMove_below hc hns hev.1 hev.2
    show List.foldl _ ((onPinPointerMove true ev g).1) evs = g
    rw [hstep]
    exact ih g hc hns (fun e he => h e (List.mem_cons_of_mem ev he))

theorem processPinMoves_started {c : DragCandidate} :
    ∀ (moves : List PointerEv) (g : PinGesture),
    g.candidate = some c → c.started = true →
    (∀ ev ∈ moves, ev.buttons &&& 1 = 1) →
    processPinMoves true moves g = g := by
  intro moves
  induction moves with
  | nil => intro g _ _ _; rfl
  | cons ev evs ih =>
    intro g hc hs h
    have hstep := onPinPointerMove_started_fst hc hs (h ev (List.mem_cons_self ev evs))
    show List.foldl _ ((onPinPointerMove true ev g).1) evs = g
    rw [hstep]
    exact ih g hc hs (fun e he => h e (List.mem_cons_of_mem ev he))

/-- C4: for a pin pointer lifetime (primary-button down, moves with
the button held, up) in edit mode: (a) if every move's squared
displacement from the start stays below the drag threshold, pointer-up
classifies the gesture as a click, never a drag; (b) a move reaching
the threshold arms the drag; (c) once armed, any further moves — even
returning to the start — leave it armed, and pointer-up classifies a
drag. -/
theorem pinGesture_click_drag (downEv : PointerEv) (id : String)
    (moves : List PointerEv) (hdown : downEv.button = 0) :
    ((∀ ev ∈ moves, ev.buttons &&& 1 = 1 ∧
        (ev.clientX - downEv.clientX) * (ev.clientX - downEv.clientX) +
          (ev.clientY - downEv.clientY) * (ev.clientY - downEv.clientY) <
        DRAG_THRESHOLD_PX * DRAG_THRESHOLD_PX) →
      (onPinPointerUp (processPinMoves true moves
        (onPinPointerDown true downEv id ⟨none, none, none⟩))).2 = false) ∧
    (∀ ev : PointerEv, id ≠ "" → ev.buttons &&& 1 = 1 →
      ¬((ev.clientX - downEv.clientX) * (ev.clientX - downEv.clientX) +
          (ev.clientY - downEv.clientY) * (ev.clientY - downEv.clientY) <
        DRAG_THRESHOLD_PX * DRAG_THRESHOLD_PX) →
      ∃ c : DragCandidate,
        (onPinPointerMove true ev
          (onPinPointerDown true downEv id ⟨none, none, none⟩)).1.candidate = some c ∧
        c.started = true ∧
        (onPinPointerMove true ev
          (onPinPointerDown true downEv id ⟨none, none, none⟩)).1.draggingId = some id) ∧
    (∀ (g : PinGesture) (c : DragCandidate) (laterMoves : List PointerEv),
      g.candidate = some c → c.started = true →
      (∀ ev ∈ laterMoves, ev.buttons &&& 1 = 1) →
      (onPinPointerUp (processPinMoves true laterMoves g)).2 = true) := by
  have hg0 : (onPinPointerDown true downEv id ⟨none, none, none⟩).candidate =
      some ⟨id, downEv.pointerId, downEv.clientX, downEv.clientY, false⟩ := by
    unfold onPinPointerDown
    rw [if_neg (by simp), if_neg (by simp [hdown])]
  refine ⟨?_, ?_, ?_⟩
  · intro h
    rw [processPinMoves_below moves _ hg0 rfl h]
    unfold onPinPointerUp
    rw [hg0]
    simp
  · intro ev hid hbtn hdist
    unfold onPinPointerMove
    simp only [Bool.not_true, Bool.false_eq_true, if_false, hg0]
    rw [if_neg hid, if_neg (by simp [hbtn])]
    simp only [Bool.not_false, if_true]
    rw [if_neg hdist]
    exact ⟨_, rfl, rfl, rfl⟩
  · intro g c laterMoves hc hs hbtn
    rw [processPinMoves_started laterMoves g hc hs hbtn]
    unfold onPinPointerUp
    simp only [hc]
    rw [if_pos hs]

/-- C4 witness: pin `"p"`, down at the origin: a move to `(1,1)`
(distance² 2 < 16) yields a click; a move to `(5,0)` (distance² 25)
arms the drag; an armed gesture stays a drag after the pointer moves
back to the exact start position. -/
theorem pinGesture_click_drag_witness :
    (onPinPointerUp (processPinMoves true [⟨1, 1, 1, 1, 0⟩]
      (onPinPointerDown true ⟨1, 0, 0, 1, 0⟩ "p" ⟨none, none, none⟩))).2 = false ∧
    (∃ c : DragCandidate,
      (onPinPointerMove true ⟨1, 5, 0, 1, 0⟩
        (onPinPointerDown true ⟨1, 0, 0, 1, 0⟩ "p" ⟨none, none, none⟩)).1.candidate = some c ∧
      c.started = true ∧
      (onPinPointerMove true ⟨1, 5, 0, 1, 0⟩
        (onPinPointerDown true ⟨1, 0, 0, 1, 0⟩ "p" ⟨none, none, none⟩)).1.draggingId = some "p") ∧
    (onPinPointerUp (processPinMoves true [⟨1, 0, 0, 1, 0⟩]
      ⟨some ⟨"p", 1, 0, 0, true⟩, some "p", none⟩)).2 = true :=
  ⟨(pinGesture_click_drag ⟨1, 0, 0, 1, 0⟩ "p" [⟨1, 1, 1, 1, 0⟩] rfl).1
      (by
        intro ev hev
        rw [List.mem_singleton] at hev
        subst hev
        exact ⟨rfl, by norm_num [DRAG_THRESHOLD_PX]⟩),
   (pinGesture_click_drag ⟨1, 0, 0, 1, 0⟩ "p" [] rfl).2.1 ⟨1, 5, 0, 1, 0⟩
      (by decide) rfl (by norm_num [DRAG_THRESHOLD_PX]),
   (pinGesture_click_drag ⟨1, 0, 0, 1, 0⟩ "p" [] rfl).2.2
      ⟨some ⟨"p", 1, 0, 0, true⟩, some "p", none⟩ ⟨"p", 1, 0, 0, true⟩
      [⟨1, 0, 0, 1, 0⟩] rfl rfl
      (by
        intro ev hev
        rw [List.mem_singleton] at hev
        subst hev
        rfl)⟩

/-- The save-state machine values. -/
inductive SaveState where
  | idle
  | saving
  | saved
  | error
  deriving DecidableEq, Repr

/-- JS strict equality `v === id` between a stored pin's raw `id` and
a string id. -/
def jvalEqStr : JVal → String → Bool
  | .str t, s => t == s
  | _, _ => false

/-- JS strict equality `v === selectedId` where `selectedId` is
`string | null`. -/
def idMatches (v : JVal) (selected : Option String) : Bool :=
  match v, selected with
  | .str t, some sid => t == sid
  | .null, none => true
  | _, _ => false

/-- A `Partial<WorldMapPin>` patch, as passed to `setPin`. -/
structure PinPatch where
  id : Option JVal := none
  x : Option (Option ℚ) := none
  y : Option (Option ℚ) := none
  title : Option String := none
  subtitle : Option (Option String) := none
  description : Option (Option String) := none
  mdxCategory : Option (Option String) := none
  mdxSlug : Option (Option String) := none

/-- JS object spread `{ ...p, ...patch }`. -/
def applyPatch (p : WorldMapPin) (patch : PinPatch) : WorldMapPin :=
  { id := patch.id.getD p.id
  , x := patch.x.getD p.x
  , y := patch.y.getD p.y
  , title := patch.title.getD p.title
  , subtitle := patch.subtitle.getD p.subtitle
  , description := patch.description.getD p.description
  , mdxCategory := patch.mdxCategory.getD p.mdxCategory
  , mdxSlug := patch.mdxSlug.getD p.mdxSlug }

/-- The WorldMap component state touched by the pin-store and save
handlers. -/
structure MapState where
  pins : List WorldMapPin
  selectedId : Option String
  isAdmin : Bool
  isEditing : Bool
  createMode : Bool
  confirmDeleteOpen : Bool
  saveState : SaveState
  message : Option String
  error : Option String

/-- `selectedPin = pins.find((p) => p.id === selectedId) ?? null`. -/
def selectedPin (s : MapState) : Option WorldMapPin :=
  s.pins.find? fun p => idMatches p.id s.selectedId

/-- `setPin(id, patch)`: merges the patch into the matching pin;
no guard of any kind. -/
def setPin (s : MapState) (id : String) (patch : PinPatch) : MapState :=
  { s with pins := s.pins.map fun p =>
      if jvalEqStr p.id id then applyPatch p patch else p }

/-- `createPinAt(x, y)`: prepends a new pin with a generated id
(passed as a parameter here, `newId()` being nondeterministic) and
default title `"New pin"`, selects it; no guard of any kind. -/
def createPinAt (s : MapState) (newPinId : String) (x y : ℚ) : MapState :=
  { s with
    pins := { id := JVal.str newPinId, x := some (clamp01 x), y := some (clamp01 y)
            , title := "New pin", subtitle := none, description := none
            , mdxCategory := none, mdxSlug := none } :: s.pins
  , selectedId := some newPinId
  , message := some "Created a new pin." }

/-- The outcome of the `fetch` issued by `savePins`: `res.ok`, a
non-ok status (with the error message parsed from the body, if any),
or a thrown network error. -/
inductive FetchOutcome where
  | ok
  | httpError (errMsg : Option String)
  | networkError
  deriving Repr

/-- The synchronous prefix of `savePins(pinsToSave?)`: sets the save
state to `saving`, clears the error, and posts `pinsToSave ?? pins`
(the second component is the request payload). -/
def savePinsStart (s : MapState) (pinsToSave : Option (List WorldMapPin)) :
    MapState × List WorldMapPin :=
  ({ s with saveState := .saving, error := none }, pinsToSave.getD s.pins)

/-- The continuation of `savePins` once the fetch settles: `saved`
plus a confirmation message on success (with a 1.5 s timer back to
`idle`, modelled by `saveTimerFire`), `error` plus an error message on
a non-ok status or a throw. The pin list is never touched. -/
def savePinsResolve (s : MapState) (outcome : FetchOutcome) : MapState :=
  match outcome with
  | .ok => { s with saveState := .saved, message := some "Pins saved." }
  | .httpError m => { s with error := some (m.getD "Save failed."), saveState := .error }
  | .networkError => { s with error := some "Save failed.", saveState := .error }

/-- The `setTimeout(() => setSaveState("idle"), 1500)` callback. -/
def saveTimerFire (s : MapState) : MapState :=
  { s with saveState := .idle }

/-- `requestDeleteSelected()`: opens the confirm modal only when a pin
is selected and both the admin capability and edit mode are on. -/
def requestDeleteSelected (s : MapState) : MapState :=
  if (selectedPin s).isSome && s.isAdmin && s.isEditing then
    { s with confirmDeleteOpen := true }
  else s

/-- `confirmDeleteSelected()`: with a (non-empty) selected id, closes
the modal, removes the pin, clears the selection and immediately
starts a save of the filtered list (the returned payload); no admin
guard of its own. -/
def confirmDeleteSelected (s : MapState) : MapState × Option (List WorldMapPin) :=
  match s.selectedId with
  | none => (s, none)
  | some sid =>
    if sid = "" then (s, none)
    else
      let nextPins := s.pins.filter fun p => !(jvalEqStr p.id sid)
      let s1 := { s with
        confirmDeleteOpen := false,
        pins := nextPins,
        selectedId := none,
        message := some "Pin deleted. Saving…" }
      ((savePinsStart s1 (some nextPins)).1, some nextPins)

/-- `onViewportClick(event)`: creates a pin at the clicked point only
when `canEdit` (admin ∧ editing) and create mode hold, the click is
not within 150 ms of a pan end, and the container resolves. -/
def onViewportClick (s : MapState) (container : Option (ℚ × ℚ))
    (camera : Camera) (imgSize : Size) (newPinId : String)
    (timeStamp lastPanEnded clientX clientY : ℚ) : MapState :=
  if !(s.isAdmin && s.isEditing) || !s.createMode then s
  else if timeStamp - lastPanEnded < 150 then s
  else
    match clientToNormalized container camera imgSize clientX clientY with
    | none => s
    | some (x, y) => { createPinAt s newPinId x y with createMode := false }

/-- A concrete non-admin state holding one pin, for the C7
counterexample. -/
def nonAdminState : MapState :=
  { pins := [{ id := JVal.str "a", x := some 0, y := some 0, title := "t", subtitle := none
             , description := none, mdxCategory := none, mdxSlug := none }]
  , selectedId := some "a", isAdmin := false, isEditing := false
  , createMode := false, confirmDeleteOpen := false, saveState := .idle
  , message := none, error := none }

/-- C7 counterexample: with the admin capability false, invoking the
`setPin` entry point still mutates the in-memory pin list (it carries
no admin or edit-mode guard; gating lives at the UI call sites). -/
theorem setPin_without_admin_counterexample :
    nonAdminState.isAdmin = false ∧
    (setPin nonAdminState "a" { title := some "x" }).pins ≠ nonAdminState.pins := by
  refine ⟨rfl, ?_⟩
  intro h
  simp +decide [setPin, applyPatch, jvalEqStr, nonAdminState] at h

/-- C7 amended: mutation gating is enforced at the UI call sites, not
inside every entry point: `requestDeleteSelected` and the
`onViewportClick` create path are no-ops unless both the admin
capability and edit mode are true, and `savePins` never touches the
pin list; but `setPin` (and likewise `createPinAt` and
`confirmDeleteSelected`) perform their mutation regardless of the
admin capability, as the counterexample shows. -/
theorem mutationGating (s : MapState) :
    ((s.isAdmin && s.isEditing) = false → requestDeleteSelected s = s) ∧
    (∀ (container : Option (ℚ × ℚ)) (camera : Camera) (imgSize : Size)
        (newPinId : String) (timeStamp lastPanEnded clientX clientY : ℚ),
      (s.isAdmin && s.isEditing) = false →
      onViewportClick s container camera imgSize newPinId timeStamp lastPanEnded
        clientX clientY = s) ∧
    (∀ payload, (savePinsStart s payload).1.pins = s.pins) ∧
    (∀ outcome, (savePinsResolve s outcome).pins = s.pins) := by
  refine ⟨?_, ?_, fun payload => rfl, ?_⟩
  · intro h
    rw [requestDeleteSelected, Bool.and_assoc, h]
    simp
  · intro container camera imgSize newPinId timeStamp lastPanEnded clientX clientY h
    rw [onViewportClick, h]
    simp
  · intro outcome
    cases outcome <;> rfl

/-- C7 amended witness: in the concrete non-admin state, the delete
request and the viewport-click create path leave the state unchanged,
and a resolving save leaves the pins unchanged. -/
theorem mutationGating_witness :
    requestDeleteSelected nonAdminState = nonAdminState ∧
    onViewportClick nonAdminState (some (0, 0)) ⟨1, 0, 0⟩ ⟨100, 100⟩ "b" 1000 0 50 50
      = nonAdminState ∧
    (savePinsResolve nonAdminState .networkError).pins = nonAdminState.pins :=
  ⟨(mutationGating nonAdminState).1 rfl,
   (mutationGating nonAdminState).2.1 (some (0, 0)) ⟨1, 0, 0⟩ ⟨100, 100⟩ "b" 1000 0 50 50 rfl,
   (mutationGating nonAdminState).2.2.2 .networkError⟩

/-- C8: `savePins` posts a snapshot while never touching the pin list:
the synchronous prefix sets `saving` and sends `pinsToSave ?? pins`;
a non-ok status or a thrown fetch resolves to save-state `error` with
the pins exactly as before; success resolves to `saved` and the timer
reverts it to `idle`. -/
theorem savePins_spec :
    (∀ (s : MapState) payload, (savePinsStart s payload).1.pins = s.pins ∧
      (savePinsStart s payload).1.saveState = .saving ∧
      (savePinsStart s payload).2 = payload.getD s.pins) ∧
    (∀ (s : MapState) outcome, (savePinsResolve s outcome).pins = s.pins) ∧
    (∀ (s : MapState) m, (savePinsResolve s (.httpError m)).saveState = .error) ∧
    (∀ s : MapState, (savePinsResolve s .networkError).saveState = .error) ∧
    (∀ s : MapState, (savePinsResolve s .ok).saveState = .saved ∧
      (saveTimerFire (savePinsResolve s .ok)).saveState = .idle) := by
  refine ⟨fun s payload => ⟨rfl, rfl, rfl⟩, fun s outcome => ?_,
    fun s m => rfl, fun s => rfl, fun s => ⟨rfl, rfl⟩⟩
  cases outcome <;> rfl

end EoniaAtlas
